import Mathlib

/-!
Shallow embedding of the offline synchronization engine of the collab-space
repository, together with proofs of the specification claims about it.

Server side (src/backend/src/modules/sync/service/sync.service.ts):
the `SyncService` class operates on a Prisma database holding entity tables
and an append-only `sync_logs` table (primary key `id`, see the migration
file).  The database is modelled as an explicit `ServerState`; every async
method becomes a pure function on that state, `throw` becomes
`Except String`, and `new Date()` / `crypto.randomUUID()` become explicit
`now` / `newId` parameters.  JSON payloads are modelled as association
lists of string fields; relation `include` joins (which only enrich the
returned snapshot) are not modelled.

Client side: the pending-queue bookkeeping of
`useSyncStatus.triggerSync` (src/frontend/src/hooks/useSyncStatus.ts) and
the reconnection loop `retryConnection`
(src/frontend/src/hooks/useNetworkStatus.ts) are embedded as pure
functions; timers become explicit delay values and the probe outcome
becomes an oracle `Nat → Bool` giving the result of the n-th probe.
-/

namespace CollabSpace

/-- JSON object payload, modelled as an association list of fields. -/
abbrev EntityData := List (String × String)

/-- The `SyncEntityType` enum from sync.types.ts: five declared entity types,
of which only `user`, `task`, `project` get a registered config. -/
inductive SyncEntityType where
  | user
  | task
  | project
  | message
  | file
deriving DecidableEq, Repr

/-- String value of each enum member, as declared in sync.types.ts. -/
def SyncEntityType.name : SyncEntityType → String
  | .user => "user"
  | .task => "task"
  | .project => "project"
  | .message => "message"
  | .file => "file"

/-- Mutation action of a sync record. -/
inductive SyncAction where
  | CREATE
  | UPDATE
  | DELETE
deriving DecidableEq, Repr

/-- Structure `EntitySyncConfig` from sync.types.ts. -/
structure EntitySyncConfig where
  entityType : SyncEntityType
  tableName : String
  includes : List String := []
  excludeFields : List String := []
  softDelete : Bool := false
deriving DecidableEq, Repr

/-- The entity-config registry built by `initializeEntityConfigs`:
`user`, `task` and `project` are registered; `message` and `file` are not. -/
def entityConfigs : SyncEntityType → Option EntitySyncConfig
  | .user => some { entityType := .user, tableName := "user",
                    excludeFields := ["password", "refreshToken"] }
  | .task => some { entityType := .task, tableName := "task",
                    includes := ["assignee", "project"] }
  | .project => some { entityType := .project, tableName := "project",
                       includes := ["members"] }
  | _ => none

/-- Registered entity types in the registry's insertion (iteration) order. -/
def registeredTypes : List SyncEntityType := [.user, .task, .project]

/-- A wire `SyncRecord` (sync.types.ts). -/
structure SyncRecord where
  id : String
  entityType : SyncEntityType
  entityId : String
  action : SyncAction
  data : Option EntityData
  timestamp : Nat
  userId : String
  version : Nat
deriving DecidableEq, Repr

/-- A row of the append-only `sync_logs` table (primary key `id`). -/
structure SyncLogEntry where
  id : String
  entityType : SyncEntityType
  entityId : String
  action : SyncAction
  data : Option EntityData
  userId : String
  timestamp : Nat
  version : Nat
  checksum : String
deriving DecidableEq, Repr

/-- Structure `SyncToken` (sync.types.ts); `entityVersions` is a finite map
entityType → version, absent entries read as 0. -/
structure SyncToken where
  userId : String
  lastSyncTimestamp : Nat
  entityVersions : List (SyncEntityType × Nat)
deriving DecidableEq, Repr

/-- Lookup `entityVersions[entityType] || 0`. -/
def lookupVersion (evs : List (SyncEntityType × Nat)) (et : SyncEntityType) : Nat :=
  ((evs.find? (fun p => p.1 = et)).map (·.2)).getD 0

/-- One row of an entity table: table name, row id, payload. -/
structure TableRow where
  table : String
  rowId : String
  data : EntityData
deriving DecidableEq, Repr

/-- The server database: entity tables plus the append-only sync log. -/
structure ServerState where
  tables : List TableRow
  syncLog : List SyncLogEntry
deriving DecidableEq, Repr

/-- Prisma `model.findUnique` by row id. -/
def getRow (st : ServerState) (table rowId : String) : Option EntityData :=
  (st.tables.find? (fun row => row.table = table ∧ row.rowId = rowId)).map (·.data)

/-- Prisma `model.create`: fails on an existing primary key, otherwise inserts. -/
def createRow (st : ServerState) (table rowId : String) (data : EntityData) :
    Except String ServerState :=
  if (getRow st table rowId).isSome then
    .error "Unique constraint failed"
  else
    .ok { st with tables := ⟨table, rowId, data⟩ :: st.tables }

/-- Prisma `model.update`: fails when the row does not exist. -/
def updateRow (st : ServerState) (table rowId : String) (data : EntityData) :
    Except String ServerState :=
  if (getRow st table rowId).isSome then
    .ok { st with tables :=
      st.tables.map (fun row =>
        if row.table = table ∧ row.rowId = rowId then ⟨table, rowId, data⟩ else row) }
  else
    .error "Record to update not found."

/-- Prisma `model.delete`: fails when the row does not exist. -/
def deleteRow (st : ServerState) (table rowId : String) : Except String ServerState :=
  if (getRow st table rowId).isSome then
    .ok { st with tables :=
      st.tables.filter (fun row => ¬(row.table = table ∧ row.rowId = rowId)) }
  else
    .error "Record to delete does not exist."

/-- Method `SyncService.getEntityData`: re-fetch the current entity snapshot by id,
dropping the config's excluded fields (relation includes are not modelled).
Returns `none` when the row does not exist (TS `null`). -/
def getEntityData (st : ServerState) (config : EntitySyncConfig) (entityId : String) :
    Option EntityData :=
  (getRow st config.tableName entityId).map
    (fun d => d.filter (fun kv => ¬ kv.1 ∈ config.excludeFields))

/-- Highest audit-log version for an `(entityType, entityId)` pair, 0 if none
(`syncLog.findFirst` ordered by version descending). -/
def maxVersionFor (log : List SyncLogEntry) (et : SyncEntityType) (eid : String) : Nat :=
  (log.filter (fun e => e.entityType = et ∧ e.entityId = eid)).foldr
    (fun e m => max e.version m) 0

/-- Highest audit-log version for an entity type among entries originated by
one user, 0 if none (the `where` clause of `createSyncToken`). -/
def maxVersionForUser (log : List SyncLogEntry) (et : SyncEntityType) (uid : String) : Nat :=
  (log.filter (fun e => e.entityType = et ∧ e.userId = uid)).foldr
    (fun e m => max e.version m) 0

/-- Highest audit-log version for an entity type over the whole log, 0 if
none.  This is the quantity the specification text speaks about. -/
def maxVersionForType (log : List SyncLogEntry) (et : SyncEntityType) : Nat :=
  (log.filter (fun e => e.entityType = et)).foldr (fun e m => max e.version m) 0

/-- Method `SyncService.createSyncToken`: one `entityVersions` entry per registered
entity type, each the highest version among the log entries of that type
*whose `userId` is the requesting user*. -/
def createSyncToken (st : ServerState) (userId : String) (now : Nat) : SyncToken :=
  { userId := userId
    lastSyncTimestamp := now
    entityVersions :=
      registeredTypes.map (fun et => (et, maxVersionForUser st.syncLog et userId)) }

/-- Method `generateChecksum`: md5 of the JSON payload in the source; modelled as an
injective encoding of the payload (the claims never inspect its value). -/
def generateChecksum (data : Option EntityData) : String :=
  match data with
  | none => "null"
  | some d => d.foldr (fun kv acc => kv.1 ++ ":" ++ kv.2 ++ ";" ++ acc) "obj"

deriving instance DecidableEq for Except

/-- Conflict payload attached to a CONFLICT rejection by `detectConflict`. -/
structure ConflictData where
  serverVersion : Nat
  clientVersion : Nat
  serverData : Option EntityData
  clientData : Option EntityData
deriving DecidableEq, Repr

/-- Method `SyncService.detectConflict`: it is `none` when the entity type is not
registered; otherwise compare the pair's highest audit-log version with the
token's claimed version for the entity type and report a conflict exactly
when the server is ahead. -/
def detectConflict (st : ServerState) (record : SyncRecord) (syncToken : SyncToken) :
    Option ConflictData :=
  match entityConfigs record.entityType with
  | none => none
  | some config =>
    let serverVersion := maxVersionFor st.syncLog record.entityType record.entityId
    let clientVersion := lookupVersion syncToken.entityVersions record.entityType
    if clientVersion < serverVersion then
      some { serverVersion := serverVersion
             clientVersion := clientVersion
             serverData := getEntityData st config record.entityId
             clientData := record.data }
    else
      none

/-- Method `SyncService.applyChange`: apply the record's mutation to the entity
table, with the Prisma failure modes (duplicate create, missing update or
delete target).  `softDelete` is false for every registered config, so the
DELETE branch hard-deletes. -/
def applyChange (st : ServerState) (record : SyncRecord) : Except String ServerState :=
  match entityConfigs record.entityType with
  | none => .error ("Entity type " ++ record.entityType.name ++ " not configured")
  | some config =>
    match record.action with
    | .CREATE => createRow st config.tableName record.entityId (record.data.getD [])
    | .UPDATE => updateRow st config.tableName record.entityId (record.data.getD [])
    | .DELETE =>
      if config.softDelete then
        updateRow st config.tableName record.entityId [("deleted", "true")]
      else
        deleteRow st config.tableName record.entityId

/-- Method `SyncService.logSyncRecord`: read the pair's highest version, then insert
a `sync_logs` row with `version = highest + 1` under the submitted record's
id.  The table's primary key on `id` makes the insert fail when that id was
already logged. -/
def logSyncRecord (st : ServerState) (record : SyncRecord) (userId : String) (now : Nat) :
    Except String ServerState :=
  let nextVersion := maxVersionFor st.syncLog record.entityType record.entityId + 1
  if st.syncLog.any (fun e => e.id = record.id) then
    .error "Unique constraint failed"
  else
    .ok { st with syncLog :=
      { id := record.id
        entityType := record.entityType
        entityId := record.entityId
        action := record.action
        data := record.data
        userId := userId
        timestamp := now
        version := nextVersion
        checksum := generateChecksum record.data } :: st.syncLog }

/-- The body of `pushData`'s per-record `try` block after conflict detection:
apply the change, then log it.  A failure of the log step keeps the already
applied entity change (there is no transaction in the source). -/
def applyAndLog (st : ServerState) (record : SyncRecord) (userId : String) (now : Nat) :
    Except String ServerState := do
  let st1 ← applyChange st record
  logSyncRecord st1 record userId now

/-- One element of a push response's `rejected` array. -/
structure RejectedRecord where
  id : String
  reason : String
  conflictData : Option ConflictData
deriving DecidableEq, Repr

/-- Structure `PushRequest` (sync.types.ts). -/
structure PushRequest where
  records : List SyncRecord
  syncToken : SyncToken
deriving DecidableEq, Repr

/-- Structure `PushResponse` (sync.types.ts). -/
structure PushResponse where
  accepted : List String
  rejected : List RejectedRecord
  syncToken : SyncToken
  serverTimestamp : Nat
deriving DecidableEq, Repr

/-- Result of processing a list of pushed records: accepted ids, rejections,
and the database state after the batch. -/
structure PushOutcome where
  accepted : List String
  rejected : List RejectedRecord
  state : ServerState
deriving DecidableEq, Repr

/-- The record loop of `SyncService.pushData`: each record is handled inside
its own try/catch.  A conflict rejects without touching the state; an error
thrown by `applyChange` rejects with the state unchanged; an error thrown by
`logSyncRecord` rejects but keeps the entity change `applyChange` already
made; otherwise the record id is accepted. -/
def pushLoop (userId : String) (syncToken : SyncToken) (now : Nat) :
    ServerState → List SyncRecord → PushOutcome
  | st, [] => { accepted := [], rejected := [], state := st }
  | st, record :: rest =>
    match detectConflict st record syncToken with
    | some conflict =>
      let out := pushLoop userId syncToken now st rest
      { out with rejected :=
          { id := record.id, reason := "CONFLICT", conflictData := some conflict }
            :: out.rejected }
    | none =>
      match applyChange st record with
      | .error e =>
        let out := pushLoop userId syncToken now st rest
        { out with rejected :=
            { id := record.id, reason := e, conflictData := none } :: out.rejected }
      | .ok st1 =>
        match logSyncRecord st1 record userId now with
        | .error e =>
          let out := pushLoop userId syncToken now st1 rest
          { out with rejected :=
              { id := record.id, reason := e, conflictData := none } :: out.rejected }
        | .ok st2 =>
          let out := pushLoop userId syncToken now st2 rest
          { out with accepted := record.id :: out.accepted }

/-- Method `SyncService.pushData`: run the record loop, then recompute a fresh
token from the resulting state.  Also returns the resulting state. -/
def pushData (st : ServerState) (userId : String) (request : PushRequest) (now : Nat) :
    PushResponse × ServerState :=
  let out := pushLoop userId request.syncToken now st request.records
  ({ accepted := out.accepted
     rejected := out.rejected
     syncToken := createSyncToken out.state userId now
     serverTimestamp := now }, out.state)

/-- Structure `PullRequest` (sync.types.ts). -/
structure PullRequest where
  lastSyncTimestamp : Option Nat
  entityTypes : Option (List SyncEntityType)
  limit : Option Nat
deriving DecidableEq, Repr

/-- Structure `PullResponse` (sync.types.ts). -/
structure PullResponse where
  records : List SyncRecord
  syncToken : SyncToken
  hasMore : Bool
  serverTimestamp : Nat
deriving DecidableEq, Repr

/-- Stable insertion keeping entries ordered by ascending timestamp. -/
def insertByTimestamp (e : SyncLogEntry) : List SyncLogEntry → List SyncLogEntry
  | [] => [e]
  | x :: xs =>
    if e.timestamp < x.timestamp then e :: x :: xs else x :: insertByTimestamp e xs

/-- The database's `orderBy: { timestamp: 'asc' }`, as a stable sort. -/
def sortByTimestamp (l : List SyncLogEntry) : List SyncLogEntry :=
  l.foldl (fun acc e => insertByTimestamp e acc) []

/-- One iteration of `pullData`'s entity-type loop: an unregistered type is
skipped; otherwise take up to `limit` log entries of that type newer than
`since` and not originated by the caller, in timestamp order, re-fetching
the current snapshot for non-DELETE actions. -/
def pullOneType (st : ServerState) (userId : String) (since limit : Nat)
    (et : SyncEntityType) : List SyncRecord :=
  match entityConfigs et with
  | none => []
  | some config =>
    let entries :=
      (sortByTimestamp (st.syncLog.filter
        (fun e => e.entityType = et ∧ since < e.timestamp ∧ e.userId ≠ userId))).take limit
    entries.map (fun e =>
      { id := e.id
        entityType := e.entityType
        entityId := e.entityId
        action := e.action
        data := if e.action = SyncAction.DELETE then none
                else getEntityData st config e.entityId
        timestamp := e.timestamp
        userId := e.userId
        version := e.version })

/-- Method `SyncService.pullData`: defaults (`since = epoch`, all registered types,
`limit = 100`), one page per requested type concatenated in request order,
fresh token, and `hasMore` true exactly when the total page length equals
`limit`. -/
def pullData (st : ServerState) (userId : String) (request : PullRequest) (now : Nat) :
    PullResponse :=
  let since := request.lastSyncTimestamp.getD 0
  let types := request.entityTypes.getD registeredTypes
  let limit := request.limit.getD 100
  let records := types.flatMap (pullOneType st userId since limit)
  { records := records
    syncToken := createSyncToken st userId now
    hasMore := records.length = limit
    serverTimestamp := now }

/-- Total number of audit-log entries a pull request matches (registered
requested types, newer than `since`, not originated by the caller) — the
records still to deliver are these minus the returned page. -/
def matchingCount (st : ServerState) (userId : String) (request : PullRequest) : Nat :=
  let since := request.lastSyncTimestamp.getD 0
  let types := request.entityTypes.getD registeredTypes
  (types.flatMap (fun et =>
    match entityConfigs et with
    | none => []
    | some _ =>
      st.syncLog.filter
        (fun e => e.entityType = et ∧ since < e.timestamp ∧ e.userId ≠ userId))).length

/-- Conflict-resolution strategies (sync.types.ts). -/
inductive ResolutionStrategy where
  | SERVER_WINS
  | CLIENT_WINS
  | MERGE
deriving DecidableEq, Repr

/-- Structure `ConflictResolution` (sync.types.ts). -/
structure ConflictResolution where
  recordId : String
  strategy : ResolutionStrategy
  mergedData : Option EntityData
deriving DecidableEq, Repr

/-- The write tail of `SyncService.resolveConflict`: re-apply the logged
record with the chosen payload and append a fresh audit-log entry under a
new id (the `crypto.randomUUID()` of the source becomes `newId`). -/
def resolveApply (st : ServerState) (userId : String) (syncRecord : SyncLogEntry)
    (finalData : Option EntityData) (newId : String) (now : Nat) :
    Except String ServerState := do
  let record : SyncRecord :=
    { id := syncRecord.id
      entityType := syncRecord.entityType
      entityId := syncRecord.entityId
      action := syncRecord.action
      data := finalData
      timestamp := syncRecord.timestamp
      userId := syncRecord.userId
      version := syncRecord.version }
  let st1 ← applyChange st record
  logSyncRecord st1 { record with id := newId } userId now

/-- Method `SyncService.resolveConflict`: fetch the *audit-log* row with the given
record id (`syncLog.findUnique`), fail when absent; SERVER_WINS returns
without writing, CLIENT_WINS re-applies the logged payload and MERGE the
supplied `mergedData` (required), each via `resolveApply`. -/
def resolveConflict (st : ServerState) (userId : String)
    (resolution : ConflictResolution) (newId : String) (now : Nat) :
    Except String ServerState :=
  match st.syncLog.find? (fun e => e.id = resolution.recordId) with
  | none => .error "Sync record not found"
  | some syncRecord =>
    match resolution.strategy with
    | .SERVER_WINS => .ok st
    | .CLIENT_WINS => resolveApply st userId syncRecord syncRecord.data newId now
    | .MERGE =>
      match resolution.mergedData with
      | none => .error "Merged data required for MERGE strategy"
      | some d => resolveApply st userId syncRecord (some d) newId now

/-- Structure `SyncStatus` (sync.types.ts). -/
structure SyncStatus where
  userId : String
  lastSyncTimestamp : Nat
  pendingChanges : Nat
  isOnline : Bool
  syncInProgress : Bool
deriving DecidableEq, Repr

/-- Latest audit-log timestamp among a user's entries, 0 (epoch) if none
(`syncLog.findFirst` ordered by timestamp descending). -/
def maxTimestampForUser (log : List SyncLogEntry) (uid : String) : Nat :=
  (log.filter (fun e => e.userId = uid)).foldr (fun e m => max e.timestamp m) 0

/-- Method `SyncService.getSyncStatus`: the last-sync timestamp comes from the log;
`pendingChanges`, `isOnline` and `syncInProgress` are the literal constants
`0`, `true` and `false` of the source. -/
def getSyncStatus (st : ServerState) (userId : String) : SyncStatus :=
  { userId := userId
    lastSyncTimestamp := maxTimestampForUser st.syncLog userId
    pendingChanges := 0
    isOnline := true
    syncInProgress := false }

/-- A client pending-mutation queue item (`addToSyncQueue` in
useSyncStatus.ts): note `retryCount`, initialised to 0 and — as proved
below — never changed afterwards. -/
structure QueueItem where
  id : String
  entityType : String
  entityId : String
  action : SyncAction
  data : Option EntityData
  timestamp : Nat
  retryCount : Nat
deriving DecidableEq, Repr

/-- Method `OfflineDB.removeSyncQueueItem` (class `OfflineDB` in
src/frontend/src/components/ui/OfflineStatus.tsx, exported as `offlineDB`):
`tx.objectStore('syncQueue').delete(id)` on the IndexedDB store declared
with `keyPath: 'id'`, i.e. it removes the queue record stored under that
id.  The store's `add` rejects duplicate keys, so on the list model of the
store's contents the keyed delete is the filter dropping that id. -/
def removeSyncQueueItem (queue : List QueueItem) (id : String) : List QueueItem :=
  queue.filter (fun item => item.id ≠ id)

/-- The pending-queue update of `useSyncStatus.triggerSync` after a push:
`for (const acceptedId of pushResult.accepted) await
offlineDB.removeSyncQueueItem(acceptedId)` — rejected items, whatever their
reason, are left untouched and no `retryCount` is written anywhere. -/
def triggerSyncQueueUpdate (queue : List QueueItem) (accepted : List String) :
    List QueueItem :=
  accepted.foldl (fun q acceptedId => removeSyncQueueItem q acceptedId) queue

/-- A client-side surfaced conflict (`SyncConflict` in useSyncStatus.ts). -/
structure ClientConflict where
  id : String
  entityType : String
  entityId : String
  serverData : Option EntityData
  localData : Option EntityData
  timestamp : Nat
deriving DecidableEq, Repr

/-- The conflict materialisation of `useSyncStatus.triggerSync`: rejected
entries with reason CONFLICT become `ClientConflict`s, looking entity
type/id up in the pushed queue snapshot. -/
def triggerSyncConflicts (queue : List QueueItem) (rejected : List RejectedRecord)
    (now : Nat) : List ClientConflict :=
  (rejected.filter (fun item => item.reason = "CONFLICT")).map (fun item =>
    { id := item.id
      entityType := ((queue.find? (fun q => q.id = item.id)).map (·.entityType)).getD "unknown"
      entityId := ((queue.find? (fun q => q.id = item.id)).map (·.entityId)).getD ""
      serverData := (item.conflictData.map (·.serverData)).getD none
      localData := (item.conflictData.map (·.clientData)).getD none
      timestamp := now })

/-- The part of the network monitor state (useNetworkStatus.ts) that the
reconnection loop reads and writes. -/
structure NetworkModel where
  isOnline : Bool
  retryAttempts : Nat
deriving DecidableEq, Repr

/-- Delay `Math.min(1000 * Math.pow(2, attempt), 30000)`: the delay waited before
the probe of the given attempt. -/
def backoffDelay (attempt : Nat) : Nat :=
  min (1000 * 2 ^ attempt) 30000

/-- Recursion core of `retryConnection`, made structural on the number of
attempts still available (`fuel`, kept equal to `maxRetries - attempt`; the
fuel-exhausted fallback under a false guard is unreachable).  At
`attempt ≥ maxRetries` stop, recording the attempt count; otherwise wait
`backoffDelay attempt`, probe (`checkConnectionQuality`, given here as the
oracle `probe`), and either come online resetting `retryAttempts` to 0, or
bump `retryAttempts` and recurse with `attempt + 1`. -/
def retryConnectionGo (maxRetries : Nat) (probe : Nat → Bool) :
    Nat → NetworkModel → Nat → List Nat × NetworkModel
  | fuel, st, attempt =>
    if maxRetries ≤ attempt then
      ([], { st with retryAttempts := attempt })
    else
      match fuel with
      | 0 => ([], st)
      | fuel + 1 =>
        let delay := backoffDelay attempt
        if probe attempt then
          ([delay], { st with isOnline := true, retryAttempts := 0 })
        else
          let rest := retryConnectionGo maxRetries probe fuel
            { st with retryAttempts := attempt + 1 } (attempt + 1)
          (delay :: rest.1, rest.2)

/-- Function `retryConnection` of useNetworkStatus.ts.  Returns the list of
delays waited — one entry per probe actually made — together with the final
monitor state. -/
def retryConnection (maxRetries : Nat) (probe : Nat → Bool) (st : NetworkModel)
    (attempt : Nat) : List Nat × NetworkModel :=
  retryConnectionGo maxRetries probe (maxRetries - attempt) st attempt

/-! Concrete fixtures for the scenario evaluations: two payloads, tokens
claiming task version 0 and 1, an UPDATE and a DELETE record, and a few
small database states. -/

/-- Payload fixture. -/
def dataA : EntityData := [("title", "a")]

/-- Payload fixture. -/
def dataB : EntityData := [("title", "b")]

/-- Token of user u1 claiming task version 0. -/
def tokenV0 : SyncToken := { userId := "u1", lastSyncTimestamp := 0, entityVersions := [(.task, 0)] }

/-- Token of user u1 claiming task version 1. -/
def tokenV1 : SyncToken := { userId := "u1", lastSyncTimestamp := 0, entityVersions := [(.task, 1)] }

/-- An UPDATE record for task t1. -/
def recU : SyncRecord :=
  { id := "r1", entityType := .task, entityId := "t1", action := .UPDATE,
    data := some dataA, timestamp := 1, userId := "u1", version := 0 }

/-- A DELETE record for task t1. -/
def recD : SyncRecord :=
  { id := "rd", entityType := .task, entityId := "t1", action := .DELETE,
    data := none, timestamp := 1, userId := "u1", version := 0 }

/-- The empty database. -/
def stateEmpty : ServerState := { tables := [], syncLog := [] }

/-- A database holding task t1 and an empty audit log. -/
def stateTask : ServerState := { tables := [⟨"task", "t1", dataB⟩], syncLog := [] }

/-- Audit-log entry fixture (an UPDATE logged by the given user). -/
def mkEntry (id : String) (et : SyncEntityType) (eid uid : String) (ts v : Nat) :
    SyncLogEntry :=
  { id := id, entityType := et, entityId := eid, action := .UPDATE, data := some dataB,
    userId := uid, timestamp := ts, version := v, checksum := "c" }

/-- A database where another user u2 already advanced task t1 to version 1. -/
def stateAhead : ServerState :=
  { tables := [⟨"task", "t1", dataB⟩], syncLog := [mkEntry "s1" .task "t1" "u2" 1 1] }

/-- The state after `recU` is pushed to `stateTask` and accepted. -/
def stateAfterAccept : ServerState := (pushData stateTask "u1" ⟨[recU], tokenV0⟩ 5).2

/-- The state after `recD` is pushed to `stateTask` and accepted. -/
def stateAfterDelete : ServerState := (pushData stateTask "u1" ⟨[recD], tokenV0⟩ 5).2

/-- Pull fixture: three task entries and one project entry by user u2. -/
def stateMulti : ServerState :=
  { tables := []
    syncLog := [mkEntry "a1" .task "t1" "u2" 1 1, mkEntry "a2" .task "t1" "u2" 2 2,
                mkEntry "a3" .task "t1" "u2" 3 3, mkEntry "b1" .project "p1" "u2" 1 1] }

/-- Pull request with all defaulted entity types and limit 2. -/
def requestAll2 : PullRequest := { lastSyncTimestamp := none, entityTypes := none, limit := some 2 }

/-- Pull fixture: five task entries by user u2, listed out of timestamp order. -/
def stateFive : ServerState :=
  { tables := []
    syncLog := [mkEntry "a5" .task "t5" "u2" 5 1, mkEntry "a3" .task "t3" "u2" 3 1,
                mkEntry "a1" .task "t1" "u2" 1 1, mkEntry "a4" .task "t4" "u2" 4 1,
                mkEntry "a2" .task "t2" "u2" 2 1] }

/-- Pull request for tasks only with limit 2. -/
def requestTask2 : PullRequest :=
  { lastSyncTimestamp := none, entityTypes := some [.task], limit := some 2 }

/-- A database whose only audit-log entry was originated by user u2. -/
def stateOther : ServerState := { tables := [], syncLog := [mkEntry "x1" .task "t1" "u2" 1 1] }

/-- A pending queue item with `retryCount` 0. -/
def queueItem1 : QueueItem :=
  { id := "q1", entityType := "task", entityId := "t1", action := .UPDATE,
    data := some dataA, timestamp := 1, retryCount := 0 }

/-- A push response rejection whose reason is not CONFLICT. -/
def rejectedOther : List RejectedRecord :=
  [{ id := "q1", reason := "Record to update not found.", conflictData := none }]

/-- Result of logging `recU` on top of `stateAhead` (a successful append). -/
def stateLogged : ServerState :=
  (logSyncRecord stateAhead recU "u1" 9).toOption.getD stateAhead

/-! Helper lemmas shared by the claim theorems. -/

/-- The not-configured error message can never spell CONFLICT. -/
theorem entity_not_configured_ne_conflict (s : String) :
    "Entity type " ++ s ++ " not configured" ≠ "CONFLICT" := by
  intro h
  have hlen := congrArg String.length h
  rw [String.length_append, String.length_append] at hlen
  have h1 : "Entity type ".length = 12 := rfl
  have h2 : " not configured".length = 15 := rfl
  have h3 : "CONFLICT".length = 8 := rfl
  omega

/-- The only error `createRow` can throw is the unique-constraint one. -/
theorem createRow_error (st : ServerState) (t i : String) (d : EntityData) (e : String)
    (h : createRow st t i d = .error e) : e = "Unique constraint failed" := by
  unfold createRow at h
  split at h <;> simp_all

/-- The only error `updateRow` can throw is the not-found one. -/
theorem updateRow_error (st : ServerState) (t i : String) (d : EntityData) (e : String)
    (h : updateRow st t i d = .error e) : e = "Record to update not found." := by
  unfold updateRow at h
  split at h <;> simp_all

/-- The only error `deleteRow` can throw is the does-not-exist one. -/
theorem deleteRow_error (st : ServerState) (t i : String) (e : String)
    (h : deleteRow st t i = .error e) : e = "Record to delete does not exist." := by
  unfold deleteRow at h
  split at h <;> simp_all

/-- Every error `applyChange` can throw differs from the CONFLICT marker. -/
theorem applyChange_error_ne_conflict (st : ServerState) (r : SyncRecord) (e : String)
    (h : applyChange st r = .error e) : e ≠ "CONFLICT" := by
  unfold applyChange at h
  cases hc : entityConfigs r.entityType with
  | none =>
    rw [hc] at h
    simp only [Except.error.injEq] at h
    exact h ▸ entity_not_configured_ne_conflict r.entityType.name
  | some config =>
    rw [hc] at h
    cases hA : r.action <;> simp only [hA] at h
    · rw [createRow_error st config.tableName r.entityId (r.data.getD []) e h]
      decide
    · rw [updateRow_error st config.tableName r.entityId (r.data.getD []) e h]
      decide
    · split at h
      · rw [updateRow_error st config.tableName r.entityId [("deleted", "true")] e h]
        decide
      · rw [deleteRow_error st config.tableName r.entityId e h]
        decide

/-- Applying an entity mutation never touches the audit log. -/
theorem applyChange_preserves_syncLog (st : ServerState) (r : SyncRecord)
    (st1 : ServerState) (h : applyChange st r = .ok st1) : st1.syncLog = st.syncLog := by
  unfold applyChange at h
  cases hc : entityConfigs r.entityType with
  | none => rw [hc] at h; simp at h
  | some config =>
    rw [hc] at h
    cases hA : r.action <;> simp only [hA] at h
    · unfold createRow at h
      split at h <;> first | (simp only [Except.ok.injEq] at h; exact h ▸ rfl) | simp_all
    · unfold updateRow at h
      split at h <;> first | (simp only [Except.ok.injEq] at h; exact h ▸ rfl) | simp_all
    · split at h
      · unfold updateRow at h
        split at h <;> first | (simp only [Except.ok.injEq] at h; exact h ▸ rfl) | simp_all
      · unfold deleteRow at h
        split at h <;> first | (simp only [Except.ok.injEq] at h; exact h ▸ rfl) | simp_all

/-- The only error `logSyncRecord` can throw is the unique-constraint one. -/
theorem logSyncRecord_error (st : ServerState) (r : SyncRecord) (uid : String) (now : Nat)
    (e : String) (h : logSyncRecord st r uid now = .error e) :
    e = "Unique constraint failed" := by
  unfold logSyncRecord at h
  split at h <;> simp_all

/-- Every error of the apply-then-log sequence differs from CONFLICT. -/
theorem applyAndLog_error_ne_conflict (st : ServerState) (r : SyncRecord) (uid : String)
    (now : Nat) (e : String) (h : applyAndLog st r uid now = .error e) : e ≠ "CONFLICT" := by
  unfold applyAndLog at h
  cases ha : applyChange st r with
  | error e0 =>
    rw [ha] at h
    simp only [bind, Except.bind, Except.error.injEq] at h
    exact h ▸ applyChange_error_ne_conflict st r e0 ha
  | ok st1 =>
    rw [ha] at h
    simp only [bind, Except.bind] at h
    rw [logSyncRecord_error st1 r uid now e h]
    decide

/-- Every pushed record contributes exactly one outcome entry. -/
theorem pushLoop_length (uid : String) (tok : SyncToken) (now : Nat) :
    ∀ (rs : List SyncRecord) (st : ServerState),
      (pushLoop uid tok now st rs).accepted.length
        + (pushLoop uid tok now st rs).rejected.length = rs.length := by
  intro rs
  induction rs with
  | nil => intro st; simp [pushLoop]
  | cons r rest ih =>
    intro st
    cases hd : detectConflict st r tok with
    | some c =>
      simp only [pushLoop, hd, List.length_cons]
      have := ih st
      omega
    | none =>
      cases ha : applyChange st r with
      | error e =>
        simp only [pushLoop, hd, ha, List.length_cons]
        have := ih st
        omega
      | ok st1 =>
        cases hl : logSyncRecord st1 r uid now with
        | error e =>
          simp only [pushLoop, hd, ha, hl, List.length_cons]
          have := ih st1
          omega
        | ok st2 =>
          simp only [pushLoop, hd, ha, hl, List.length_cons]
          have := ih st2
          omega

/-- The accepted and rejected ids together are a permutation of the pushed
record ids. -/
theorem pushLoop_perm (uid : String) (tok : SyncToken) (now : Nat) :
    ∀ (rs : List SyncRecord) (st : ServerState),
      ((pushLoop uid tok now st rs).accepted
        ++ (pushLoop uid tok now st rs).rejected.map (·.id)).Perm
        (rs.map (·.id)) := by
  intro rs
  induction rs with
  | nil => intro st; simp [pushLoop]
  | cons r rest ih =>
    intro st
    cases hd : detectConflict st r tok with
    | some c =>
      simp only [pushLoop, hd, List.map_cons]
      exact List.perm_middle.trans ((ih st).cons r.id)
    | none =>
      cases ha : applyChange st r with
      | error e =>
        simp only [pushLoop, hd, ha, List.map_cons]
        exact List.perm_middle.trans ((ih st).cons r.id)
      | ok st1 =>
        cases hl : logSyncRecord st1 r uid now with
        | error e =>
          simp only [pushLoop, hd, ha, hl, List.map_cons]
          exact List.perm_middle.trans ((ih st1).cons r.id)
        | ok st2 =>
          simp only [pushLoop, hd, ha, hl, List.map_cons, List.cons_append]
          exact (ih st2).cons r.id

/-- Membership bounds the version fold used by the `findFirst` queries. -/
theorem le_foldr_max (l : List SyncLogEntry) (e : SyncLogEntry) (he : e ∈ l) :
    e.version ≤ l.foldr (fun x m => max x.version m) 0 := by
  induction l with
  | nil => cases he
  | cons x xs ih =>
    rcases List.mem_cons.mp he with h | h
    · subst h; exact le_max_left _ _
    · exact le_trans (ih h) (le_max_right _ _)

/-- A matching log entry's version never exceeds the pair's maximum. -/
theorem version_le_maxVersionFor (log : List SyncLogEntry) (et : SyncEntityType)
    (eid : String) (e : SyncLogEntry) (he : e ∈ log) (ht : e.entityType = et)
    (hi : e.entityId = eid) : e.version ≤ maxVersionFor log et eid := by
  unfold maxVersionFor
  refine le_foldr_max _ e ?_
  rw [List.mem_filter]
  exact ⟨he, by simp [ht, hi]⟩

/-- Timestamp insertion grows the list by one. -/
theorem length_insertByTimestamp (e : SyncLogEntry) :
    ∀ l : List SyncLogEntry, (insertByTimestamp e l).length = l.length + 1 := by
  intro l
  induction l with
  | nil => rfl
  | cons x xs ih =>
    unfold insertByTimestamp
    split
    · simp
    · simp [ih]

/-- The timestamp sort preserves length. -/
theorem length_sortByTimestamp (l : List SyncLogEntry) :
    (sortByTimestamp l).length = l.length := by
  suffices h : ∀ (l acc : List SyncLogEntry),
      (l.foldl (fun a e => insertByTimestamp e a) acc).length = acc.length + l.length by
    simpa using h l []
  intro l
  induction l with
  | nil => intro acc; simp
  | cons x xs ih =>
    intro acc
    simp only [List.foldl_cons]
    rw [ih (insertByTimestamp x acc), length_insertByTimestamp]
    simp only [List.length_cons]
    omega

/-- Queue items whose id is not accepted survive the dequeue loop. -/
theorem mem_triggerSyncQueueUpdate :
    ∀ (accepted : List String) (queue : List QueueItem) (item : QueueItem),
      item ∈ queue → item.id ∉ accepted → item ∈ triggerSyncQueueUpdate queue accepted := by
  intro accepted
  induction accepted with
  | nil => intro queue item hm _; exact hm
  | cons a as ih =>
    intro queue item hm hna
    have h1 : item ∈ removeSyncQueueItem queue a := by
      rw [removeSyncQueueItem, List.mem_filter]
      refine ⟨hm, ?_⟩
      simp only [decide_eq_true_eq]
      intro hc
      exact hna (hc ▸ List.mem_cons_self a as)
    have h2 : item.id ∉ as := fun hc => hna (List.mem_cons_of_mem a hc)
    exact ih (removeSyncQueueItem queue a) item h1 h2

/-- The dequeue loop only ever removes items; it never edits one. -/
theorem triggerSyncQueueUpdate_subset :
    ∀ (accepted : List String) (queue : List QueueItem) (item : QueueItem),
      item ∈ triggerSyncQueueUpdate queue accepted → item ∈ queue := by
  intro accepted
  induction accepted with
  | nil => intro queue item hm; exact hm
  | cons a as ih =>
    intro queue item hm
    have h1 : item ∈ removeSyncQueueItem queue a :=
      ih (removeSyncQueueItem queue a) item hm
    exact (List.mem_filter.mp h1).1

/-- Page length of one entity type's pull: the per-type `take limit` caps the
number of that type's matching entries. -/
theorem pullOneType_length (st : ServerState) (uid : String) (since lim : Nat)
    (et : SyncEntityType) (config : EntitySyncConfig) (hc : entityConfigs et = some config) :
    (pullOneType st uid since lim et).length =
      min lim ((st.syncLog.filter
        (fun e => e.entityType = et ∧ since < e.timestamp ∧ e.userId ≠ uid)).length) := by
  simp [pullOneType, hc, length_sortByTimestamp]

/-- For a single-type request the matching count is that type's filter. -/
theorem matchingCount_single (st : ServerState) (uid : String) (req : PullRequest)
    (et : SyncEntityType) (config : EntitySyncConfig)
    (hreq : req.entityTypes = some [et]) (hc : entityConfigs et = some config) :
    matchingCount st uid req =
      (st.syncLog.filter (fun e => e.entityType = et ∧
        req.lastSyncTimestamp.getD 0 < e.timestamp ∧ e.userId ≠ uid)).length := by
  simp [matchingCount, hreq, hc]

/-- For a single-type request the page is that type's page. -/
theorem pullData_records_single (st : ServerState) (uid : String) (req : PullRequest)
    (now : Nat) (et : SyncEntityType) (hreq : req.entityTypes = some [et]) :
    (pullData st uid req now).records =
      pullOneType st uid (req.lastSyncTimestamp.getD 0) (req.limit.getD 100) et := by
  simp [pullData, hreq]

/-- Prepending a matching entry to the log takes the pair's maximum version
to the larger of the entry's version and the old maximum. -/
theorem maxVersionFor_cons_self (log : List SyncLogEntry) (x : SyncLogEntry)
    (et : SyncEntityType) (eid : String) (ht : x.entityType = et) (hi : x.entityId = eid) :
    maxVersionFor (x :: log) et eid = max x.version (maxVersionFor log et eid) := by
  simp [maxVersionFor, List.filter_cons, ht, hi]

/-- Full behaviour of the reconnection loop from an arbitrary attempt with
exact remaining fuel: at most `m - a` further probes, the i-th of them
preceded by the delay `backoffDelay (a + i)`, ending online with the counter
reset when some probe in range succeeds and with the counter at `m` when all
fail. -/
theorem retryConnectionGo_spec (probe : Nat → Bool) (m : Nat) :
    ∀ (fuel a : Nat) (st : NetworkModel), fuel = m - a → a ≤ m →
      (retryConnectionGo m probe fuel st a).1.length ≤ m - a ∧
      (∀ i (h : i < (retryConnectionGo m probe fuel st a).1.length),
        (retryConnectionGo m probe fuel st a).1.get ⟨i, h⟩ = backoffDelay (a + i)) ∧
      (((retryConnectionGo m probe fuel st a).2.isOnline = true ∧
        (retryConnectionGo m probe fuel st a).2.retryAttempts = 0 ∧
        ∃ n, a ≤ n ∧ n < m ∧ probe n = true) ∨
       ((retryConnectionGo m probe fuel st a).2.retryAttempts = m ∧
        ∀ n, a ≤ n → n < m → probe n = false)) := by
  intro fuel
  induction fuel with
  | zero =>
    intro a st hk ham
    have haeq : a = m := by omega
    rw [retryConnectionGo, if_pos (by omega)]
    refine ⟨by simp, by intro i h; simp at h, Or.inr ⟨haeq, ?_⟩⟩
    intro n h1 h2
    omega
  | succ fuel ih =>
    intro a st hk ham
    have halt : a < m := by omega
    rw [retryConnectionGo, if_neg (by omega)]
    cases hp : probe a with
    | true =>
      rw [if_pos rfl]
      refine ⟨?_, ?_, Or.inl ⟨rfl, rfl, a, le_refl a, halt, hp⟩⟩
      · show (1 : Nat) ≤ m - a
        omega
      · intro i h
        have h1 : i < 1 := h
        interval_cases i
        show backoffDelay a = backoffDelay (a + 0)
        rw [Nat.add_zero]
    | false =>
      rw [if_neg Bool.false_ne_true]
      have hrec := ih (a + 1) { st with retryAttempts := a + 1 } (by omega) (by omega)
      refine ⟨?_, ?_, ?_⟩
      · show (backoffDelay a ::
            (retryConnectionGo m probe fuel { st with retryAttempts := a + 1 } (a + 1)).1).length
              ≤ m - a
        rw [List.length_cons]
        have := hrec.1
        omega
      · intro i h
        cases i with
        | zero =>
          show backoffDelay a = backoffDelay (a + 0)
          rw [Nat.add_zero]
        | succ j =>
          have h2 : j + 1 < (backoffDelay a ::
              (retryConnectionGo m probe fuel { st with retryAttempts := a + 1 } (a + 1)).1).length := h
          rw [List.length_cons] at h2
          have hj : j < (retryConnectionGo m probe fuel
              { st with retryAttempts := a + 1 } (a + 1)).1.length := by
            omega
          have hg := hrec.2.1 j hj
          show (retryConnectionGo m probe fuel { st with retryAttempts := a + 1 } (a + 1)).1.get ⟨j, hj⟩
            = backoffDelay (a + (j + 1))
          rw [hg]
          congr 1
          omega
      · show ((retryConnectionGo m probe fuel { st with retryAttempts := a + 1 } (a + 1)).2.isOnline = true ∧
            (retryConnectionGo m probe fuel { st with retryAttempts := a + 1 } (a + 1)).2.retryAttempts = 0 ∧
            ∃ n, a ≤ n ∧ n < m ∧ probe n = true) ∨
          ((retryConnectionGo m probe fuel { st with retryAttempts := a + 1 } (a + 1)).2.retryAttempts = m ∧
            ∀ n, a ≤ n → n < m → probe n = false)
        rcases hrec.2.2 with ⟨h1, h2, n, hn1, hn2, hn3⟩ | ⟨h1, h2⟩
        · exact Or.inl ⟨h1, h2, n, by omega, hn2, hn3⟩
        · refine Or.inr ⟨h1, ?_⟩
          intro n hna hnm
          rcases Nat.eq_or_lt_of_le hna with h | h
          · exact h ▸ hp
          · exact h2 n (by omega) hnm

/-! The claim theorems. -/

/-- Claim C1, counterexample to the acceptance half: pushing an UPDATE for a
registered entity that does not exist, with `serverVersion = 0 ≤ 0 =
clientVersion`, does not put the record id into `accepted` — the apply step
throws and the record is rejected with that failure's message. -/
theorem claim_C1_counterexample :
    maxVersionFor stateEmpty.syncLog SyncEntityType.task "t1"
      ≤ lookupVersion tokenV0.entityVersions SyncEntityType.task ∧
    (pushData stateEmpty "u1" ⟨[recU], tokenV0⟩ 5).1.accepted = [] ∧
    (pushData stateEmpty "u1" ⟨[recU], tokenV0⟩ 5).1.rejected =
      [{ id := "r1", reason := "Record to update not found.", conflictData := none }] :=
  ⟨by decide, by decide, by decide⟩

/-- Claim C2 (code bug): resubmitting an already-accepted record id is not
detected as a no-op.  After `recU` is accepted at version 1, pushing the
identical record again with the returned token re-runs the mutation and the
audit append fails on the `id` primary key, so the id lands in `rejected`
(no second audit entry is created); the DELETE variant shows the mutation
really is attempted a second time — the re-run delete fails because the row
is already gone, and that apply-step message becomes the rejection reason. -/
theorem claim_C2_resubmission_not_noop :
    (pushData stateTask "u1" ⟨[recU], tokenV0⟩ 5).1.accepted = ["r1"] ∧
    (pushData stateAfterAccept "u1" ⟨[recU], tokenV1⟩ 6).1.accepted = [] ∧
    (pushData stateAfterAccept "u1" ⟨[recU], tokenV1⟩ 6).1.rejected =
      [{ id := "r1", reason := "Unique constraint failed", conflictData := none }] ∧
    (pushData stateAfterAccept "u1" ⟨[recU], tokenV1⟩ 6).2.syncLog
      = stateAfterAccept.syncLog ∧
    (pushData stateTask "u1" ⟨[recD], tokenV0⟩ 5).1.accepted = ["rd"] ∧
    (pushData stateAfterDelete "u1" ⟨[recD], tokenV1⟩ 6).1.rejected =
      [{ id := "rd", reason := "Record to delete does not exist.", conflictData := none }] :=
  ⟨by decide, by decide, by decide, by decide, by decide, by decide⟩

/-- Claim C3 (code bug): a conflict surfaced by a rejected push cannot be
resolved with CLIENT_WINS.  The rejected record `recU` (id "r1") never
reaches the audit log, so `resolveConflict` — which looks the id up in the
audit log — throws "Sync record not found" instead of re-applying the
client payload. -/
theorem claim_C3_client_wins_fails :
    (pushData stateAhead "u1" ⟨[recU], tokenV0⟩ 5).1.rejected.map (fun rj => rj.reason)
      = ["CONFLICT"] ∧
    (pushData stateAhead "u1" ⟨[recU], tokenV0⟩ 5).2 = stateAhead ∧
    resolveConflict stateAhead "u1" ⟨"r1", .CLIENT_WINS, none⟩ "new1" 7
      = .error "Sync record not found" :=
  ⟨by decide, by decide, by decide⟩

/-- Claim C5, counterexample: with a single audit-log entry of type task at
version 1 originated by user u2, a pull by user u1 returns a token whose
task entry is 0, not the log's highest task version 1 — the token is
computed per requesting user, not over the whole audit log. -/
theorem claim_C5_counterexample :
    (pullData stateOther "u1" ⟨none, none, none⟩ 9).syncToken.entityVersions
      = [(.user, 0), (.task, 0), (.project, 0)] ∧
    maxVersionForType stateOther.syncLog .task = 1 :=
  ⟨by decide, by decide⟩

/-- Claim C5 (amended): the token returned by every pull and every push is
recomputed from the audit log (not copied from the request), carrying for
each registered entity type the highest version among that type's log
entries originated by the requesting user (0 if none); for a push the
recomputation runs on the post-batch state. -/
theorem claim_C5_token_recomputed (st : ServerState) (uid : String)
    (req : PullRequest) (preq : PushRequest) (now : Nat) :
    (pullData st uid req now).syncToken = createSyncToken st uid now ∧
    (pushData st uid preq now).1.syncToken
      = createSyncToken (pushData st uid preq now).2 uid now ∧
    (createSyncToken st uid now).entityVersions
      = registeredTypes.map (fun et => (et, maxVersionForUser st.syncLog et uid)) :=
  ⟨rfl, rfl, rfl⟩

/-- Claim C8, counterexample: a push response that rejects the only queued
item for a non-CONFLICT reason leaves the item in the queue with its
`retryCount` still 0 — the client never increments `retryCount`, so the
claimed increment does not happen. -/
theorem claim_C8_counterexample :
    triggerSyncConflicts [queueItem1] rejectedOther 9 = [] ∧
    triggerSyncQueueUpdate [queueItem1] [] = [queueItem1] ∧
    queueItem1.retryCount = 0 :=
  ⟨by decide, by decide, by decide⟩

/-- Claim C8 (amended): an item rejected for any reason — its id not being in
`accepted` — remains in the pending queue after the sync cycle, unchanged
(in particular its `retryCount` is not incremented: the queue update only
removes accepted ids and never edits an item). -/
theorem claim_C8_rejected_stays_queued (queue : List QueueItem) (accepted : List String)
    (item : QueueItem) (hmem : item ∈ queue) (hna : item.id ∉ accepted) :
    item ∈ triggerSyncQueueUpdate queue accepted ∧
    ∀ it ∈ triggerSyncQueueUpdate queue accepted, it ∈ queue :=
  ⟨mem_triggerSyncQueueUpdate accepted queue item hmem hna,
   fun it hit => triggerSyncQueueUpdate_subset accepted queue it hit⟩

/-- Claim C8, witness: the concrete rejected item stays in the queue. -/
theorem claim_C8_witness :
    queueItem1 ∈ triggerSyncQueueUpdate [queueItem1] [] :=
  (claim_C8_rejected_stays_queued [queueItem1] [] queueItem1 (by simp)
    (by simp)).1

/-- Claim C1 (amended): for every pushed record of a registered entity type,
with serverVersion the pair's highest audit-log version and clientVersion
the submitted token's entry for that entity type (0 if absent): when
serverVersion > clientVersion the record is rejected with reason CONFLICT
carrying serverVersion, clientVersion, serverData and clientData, and no
entity change or audit-log append occurs for it; when serverVersion ≤
clientVersion no CONFLICT is raised — the mutation is attempted, the record
id appears in `accepted` if applying and logging succeed, and otherwise the
record is rejected with that failure's message. -/
theorem claim_C1_conflict_detection (st : ServerState) (uid : String) (token : SyncToken)
    (r : SyncRecord) (now : Nat) (config : EntitySyncConfig)
    (hconfig : entityConfigs r.entityType = some config) :
    (lookupVersion token.entityVersions r.entityType
        < maxVersionFor st.syncLog r.entityType r.entityId →
      (pushData st uid ⟨[r], token⟩ now).1.accepted = [] ∧
      (pushData st uid ⟨[r], token⟩ now).1.rejected =
        [{ id := r.id, reason := "CONFLICT",
           conflictData := some
             { serverVersion := maxVersionFor st.syncLog r.entityType r.entityId
               clientVersion := lookupVersion token.entityVersions r.entityType
               serverData := getEntityData st config r.entityId
               clientData := r.data } }] ∧
      (pushData st uid ⟨[r], token⟩ now).2 = st) ∧
    (maxVersionFor st.syncLog r.entityType r.entityId
        ≤ lookupVersion token.entityVersions r.entityType →
      (∀ st', applyAndLog st r uid now = .ok st' →
        (pushData st uid ⟨[r], token⟩ now).1.accepted = [r.id] ∧
        (pushData st uid ⟨[r], token⟩ now).1.rejected = [] ∧
        (pushData st uid ⟨[r], token⟩ now).2 = st') ∧
      (∀ e, applyAndLog st r uid now = .error e →
        (pushData st uid ⟨[r], token⟩ now).1.accepted = [] ∧
        (pushData st uid ⟨[r], token⟩ now).1.rejected =
          [{ id := r.id, reason := e, conflictData := none }] ∧
        (pushData st uid ⟨[r], token⟩ now).2.syncLog = st.syncLog ∧
        e ≠ "CONFLICT")) := by
  constructor
  · intro hlt
    have hd : detectConflict st r token = some
        { serverVersion := maxVersionFor st.syncLog r.entityType r.entityId
          clientVersion := lookupVersion token.entityVersions r.entityType
          serverData := getEntityData st config r.entityId
          clientData := r.data } := by
      unfold detectConflict
      rw [hconfig]
      simp only [if_pos hlt]
    refine ⟨?_, ?_, ?_⟩ <;> simp [pushData, pushLoop, hd]
  · intro hle
    have hd : detectConflict st r token = none := by
      unfold detectConflict
      rw [hconfig]
      simp only [if_neg (not_lt.mpr hle)]
    constructor
    · intro st' hok
      unfold applyAndLog at hok
      cases ha : applyChange st r with
      | error e0 =>
        rw [ha] at hok
        simp only [bind, Except.bind] at hok
        exact Except.noConfusion hok
      | ok st1 =>
        rw [ha] at hok
        simp only [bind, Except.bind] at hok
        refine ⟨?_, ?_, ?_⟩ <;> simp [pushData, pushLoop, hd, ha, hok]
    · intro e herr
      have hne : e ≠ "CONFLICT" := applyAndLog_error_ne_conflict st r uid now e herr
      unfold applyAndLog at herr
      cases ha : applyChange st r with
      | error e0 =>
        rw [ha] at herr
        simp only [bind, Except.bind, Except.error.injEq] at herr
        subst herr
        refine ⟨?_, ?_, ?_, hne⟩ <;> simp [pushData, pushLoop, hd, ha]
      | ok st1 =>
        rw [ha] at herr
        simp only [bind, Except.bind] at herr
        have hlog : st1.syncLog = st.syncLog :=
          applyChange_preserves_syncLog st r st1 ha
        refine ⟨?_, ?_, ?_, hne⟩ <;>
          simp [pushData, pushLoop, hd, ha, herr, hlog]

/-- Claim C1, witness: against a server already at task version 1, user u1
pushing with a token claiming task version 0 gets a CONFLICT rejection, an
empty accepted list and an unchanged database. -/
theorem claim_C1_witness :
    lookupVersion tokenV0.entityVersions SyncEntityType.task
      < maxVersionFor stateAhead.syncLog SyncEntityType.task "t1" ∧
    (pushData stateAhead "u1" ⟨[recU], tokenV0⟩ 5).1.accepted = [] ∧
    (pushData stateAhead "u1" ⟨[recU], tokenV0⟩ 5).2 = stateAhead :=
  ⟨by decide,
   ((claim_C1_conflict_detection stateAhead "u1" tokenV0 recU 5 _ rfl).1 (by decide)).1,
   ((claim_C1_conflict_detection stateAhead "u1" tokenV0 recU 5 _ rfl).1 (by decide)).2.2⟩

/-- Claim C4, counterexample to "undelivered records remain only when
hasMore": a defaulted-types pull with limit 2 over three task entries and
one project entry returns 3 records (the per-type cap is `limit`, so the
total can exceed it), reports `hasMore = false`, yet 4 matching entries
exist, one of them undelivered. -/
theorem claim_C4_counterexample :
    (pullData stateMulti "u1" requestAll2 9).hasMore = false ∧
    (pullData stateMulti "u1" requestAll2 9).records.length = 3 ∧
    matchingCount stateMulti "u1" requestAll2 = 4 :=
  ⟨by decide, by decide, by decide⟩

/-- Claim C4 (amended): `hasMore` is true iff the total number of returned
records equals `limit`; because the cap is applied per entity type, the
"undelivered matching records remain only when hasMore is true" reading
holds for single-entity-type pulls (where more matches than `limit` force
`hasMore = true`); the limit-2-against-5 scenario returns exactly the 2
earliest records in timestamp order with `hasMore = true`. -/
theorem claim_C4_hasMore (st : ServerState) (uid : String) (req : PullRequest) (now : Nat) :
    ((pullData st uid req now).hasMore = true ↔
      (pullData st uid req now).records.length = req.limit.getD 100) ∧
    (∀ et, req.entityTypes = some [et] →
      req.limit.getD 100 < matchingCount st uid req →
      (pullData st uid req now).hasMore = true) ∧
    ((pullData stateFive "u1" requestTask2 9).records.map (fun r => (r.id, r.timestamp))
        = [("a1", 1), ("a2", 2)] ∧
      (pullData stateFive "u1" requestTask2 9).hasMore = true) := by
  refine ⟨?_, ?_, by decide, by decide⟩
  · rw [show (pullData st uid req now).hasMore =
        decide ((pullData st uid req now).records.length = req.limit.getD 100) from rfl]
    exact decide_eq_true_iff
  · intro et hreq hcount
    cases hc : entityConfigs et with
    | none =>
      have hz : matchingCount st uid req = 0 := by
        simp [matchingCount, hreq, hc]
      omega
    | some config =>
      have hm := matchingCount_single st uid req et config hreq hc
      have hr := pullData_records_single st uid req now et hreq
      have hlen := pullOneType_length st uid (req.lastSyncTimestamp.getD 0)
        (req.limit.getD 100) et config hc
      rw [show (pullData st uid req now).hasMore =
          decide ((pullData st uid req now).records.length = req.limit.getD 100) from rfl]
      rw [hr, hlen]
      rw [hm] at hcount
      rw [Nat.min_eq_left (by omega)]
      simp

/-- Claim C4, witness: the single-type pull with limit 2 against 5 matching
records reports `hasMore = true`. -/
theorem claim_C4_witness :
    (pullData stateFive "u1" requestTask2 9).hasMore = true :=
  (claim_C4_hasMore stateFive "u1" requestTask2 9).2.1 .task rfl (by decide)

/-- Claim C6: push batches are processed with per-record isolation — the
accepted and rejected ids together are exactly the submitted ids (so
`accepted.length + rejected.length` equals the batch size and, for
distinct submitted ids, each id lands in exactly one of the two lists), a
record whose apply-or-log step throws is rejected with that failure's
message (never CONFLICT), and rejection of one record does not stop the
remaining records from being processed. -/
theorem claim_C6_per_record_isolation (st : ServerState) (uid : String)
    (token : SyncToken) (now : Nat) (records : List SyncRecord) :
    (pushData st uid ⟨records, token⟩ now).1.accepted.length
        + (pushData st uid ⟨records, token⟩ now).1.rejected.length = records.length ∧
    ((pushData st uid ⟨records, token⟩ now).1.accepted
        ++ (pushData st uid ⟨records, token⟩ now).1.rejected.map (·.id)).Perm
      (records.map (·.id)) ∧
    ((records.map (·.id)).Nodup →
      ∀ r ∈ records,
        ¬(r.id ∈ (pushData st uid ⟨records, token⟩ now).1.accepted ∧
          r.id ∈ (pushData st uid ⟨records, token⟩ now).1.rejected.map (·.id))) ∧
    (∀ r rest, records = r :: rest →
      detectConflict st r token = none →
      ∀ e, applyAndLog st r uid now = .error e →
        (pushData st uid ⟨records, token⟩ now).1.rejected.head? =
          some { id := r.id, reason := e, conflictData := none } ∧ e ≠ "CONFLICT") := by
  refine ⟨pushLoop_length uid token now records st, pushLoop_perm uid token now records st,
    ?_, ?_⟩
  · intro hnd r hr hboth
    have hperm : ((pushData st uid ⟨records, token⟩ now).1.accepted
        ++ (pushData st uid ⟨records, token⟩ now).1.rejected.map (·.id)).Perm
        (records.map (·.id)) := pushLoop_perm uid token now records st
    have h1 : (records.map (·.id)).count r.id = 1 :=
      List.count_eq_one_of_mem hnd (List.mem_map_of_mem (·.id) hr)
    have h2 : ((pushData st uid ⟨records, token⟩ now).1.accepted
        ++ (pushData st uid ⟨records, token⟩ now).1.rejected.map (·.id)).count r.id = 1 := by
      rw [hperm.count_eq r.id]
      exact h1
    rw [List.count_append] at h2
    have h3 : 1 ≤ ((pushData st uid ⟨records, token⟩ now).1.accepted).count r.id :=
      List.count_pos_iff.mpr hboth.1
    have h4 : 1 ≤ ((pushData st uid ⟨records, token⟩ now).1.rejected.map (·.id)).count r.id :=
      List.count_pos_iff.mpr hboth.2
    omega
  · intro r rest hrec hd e herr
    subst hrec
    have hne : e ≠ "CONFLICT" := applyAndLog_error_ne_conflict st r uid now e herr
    unfold applyAndLog at herr
    cases ha : applyChange st r with
    | error e0 =>
      rw [ha] at herr
      simp only [bind, Except.bind, Except.error.injEq] at herr
      subst herr
      refine ⟨?_, hne⟩
      simp [pushData, pushLoop, hd, ha]
    | ok st1 =>
      rw [ha] at herr
      simp only [bind, Except.bind] at herr
      refine ⟨?_, hne⟩
      simp [pushData, pushLoop, hd, ha, herr]

/-- Claim C6, witness: in a singleton batch whose apply step throws, the
rejection carries the apply failure's message. -/
theorem claim_C6_witness :
    (pushData stateEmpty "u1" ⟨[recU], tokenV0⟩ 5).1.rejected.head? =
      some { id := "r1", reason := "Record to update not found.", conflictData := none } :=
  ((claim_C6_per_record_isolation stateEmpty "u1" tokenV0 5 [recU]).2.2.2 recU [] rfl
    (by decide) "Record to update not found." (by decide)).1

/-- Claim C7: a successful audit-log append writes version
`previous highest for the (entityType, entityId) pair + 1` (so 1 when the
pair is new), every matching pre-existing entry has a strictly smaller
version, and the pair's highest version advances by exactly 1. -/
theorem claim_C7_version_increment (st : ServerState) (r : SyncRecord) (uid : String)
    (now : Nat) (st' : ServerState) (h : logSyncRecord st r uid now = .ok st') :
    st'.syncLog =
      { id := r.id, entityType := r.entityType, entityId := r.entityId,
        action := r.action, data := r.data, userId := uid, timestamp := now,
        version := maxVersionFor st.syncLog r.entityType r.entityId + 1,
        checksum := generateChecksum r.data } :: st.syncLog ∧
    (∀ e ∈ st.syncLog, e.entityType = r.entityType → e.entityId = r.entityId →
      e.version < maxVersionFor st.syncLog r.entityType r.entityId + 1) ∧
    maxVersionFor st'.syncLog r.entityType r.entityId
      = maxVersionFor st.syncLog r.entityType r.entityId + 1 := by
  unfold logSyncRecord at h
  split at h
  · exact Except.noConfusion h
  · simp only [Except.ok.injEq] at h
    have hlog : st'.syncLog =
        { id := r.id, entityType := r.entityType, entityId := r.entityId,
          action := r.action, data := r.data, userId := uid, timestamp := now,
          version := maxVersionFor st.syncLog r.entityType r.entityId + 1,
          checksum := generateChecksum r.data } :: st.syncLog := by
      rw [← h]
    refine ⟨hlog, ?_, ?_⟩
    · intro e he ht hi
      have := version_le_maxVersionFor st.syncLog r.entityType r.entityId e he ht hi
      omega
    · rw [hlog, maxVersionFor_cons_self st.syncLog _ r.entityType r.entityId rfl rfl]
      have hmax : max (maxVersionFor st.syncLog r.entityType r.entityId + 1)
          (maxVersionFor st.syncLog r.entityType r.entityId)
          = maxVersionFor st.syncLog r.entityType r.entityId + 1 := by
        omega
      exact hmax

/-- Claim C7, witness: appending on top of the version-1 state takes the
task t1 pair's highest version from 1 to 2. -/
theorem claim_C7_witness :
    maxVersionFor stateLogged.syncLog SyncEntityType.task "t1"
      = maxVersionFor stateAhead.syncLog SyncEntityType.task "t1" + 1 :=
  (claim_C7_version_increment stateAhead recU "u1" 9 stateLogged (by decide)).2.2

/-- Claim C9: from a detected offline transition (`retryConnection` started
at attempt 0), the loop makes at most `maxRetries` probe attempts, waits
`min(1000·2^n, 30000)` milliseconds before attempt n, and terminates either
online with `retryAttempts` reset to 0 (some probe within the bound
succeeded) or with the attempt count at `maxRetries` (every probe within
the bound failed). -/
theorem claim_C9_bounded_backoff (maxRetries : Nat) (probe : Nat → Bool)
    (st : NetworkModel) :
    (retryConnection maxRetries probe st 0).1.length ≤ maxRetries ∧
    (∀ i (h : i < (retryConnection maxRetries probe st 0).1.length),
      (retryConnection maxRetries probe st 0).1.get ⟨i, h⟩ = backoffDelay i) ∧
    (((retryConnection maxRetries probe st 0).2.isOnline = true ∧
      (retryConnection maxRetries probe st 0).2.retryAttempts = 0 ∧
      ∃ n, n < maxRetries ∧ probe n = true) ∨
     ((retryConnection maxRetries probe st 0).2.retryAttempts = maxRetries ∧
      ∀ n, n < maxRetries → probe n = false)) := by
  have h := retryConnectionGo_spec probe maxRetries (maxRetries - 0) 0 st rfl
    (Nat.zero_le maxRetries)
  refine ⟨by simpa using h.1, ?_, ?_⟩
  · intro i hi
    have := h.2.1 i hi
    simpa using this
  · rcases h.2.2 with ⟨h1, h2, n, _, hn2, hn3⟩ | ⟨h1, h2⟩
    · exact Or.inl ⟨h1, h2, n, hn2, hn3⟩
    · exact Or.inr ⟨h1, fun n hn => h2 n (Nat.zero_le n) hn⟩

/-- Claim C9, witness: with `maxRetries = 3` and a probe that first succeeds
on attempt 1, the loop made at most 3 probes and the delay before attempt 0
was `backoffDelay 0 = 1000` milliseconds. -/
theorem claim_C9_witness :
    (retryConnection 3 (fun n => n == 1) ⟨false, 0⟩ 0).1.length ≤ 3 ∧
    (retryConnection 3 (fun n => n == 1) ⟨false, 0⟩ 0).1.get ⟨0, by decide⟩
      = backoffDelay 0 :=
  ⟨(claim_C9_bounded_backoff 3 (fun n => n == 1) ⟨false, 0⟩).1,
   (claim_C9_bounded_backoff 3 (fun n => n == 1) ⟨false, 0⟩).2.1 0 (by decide)⟩

/-- Claim C10: `getSyncStatus` returns the constants `pendingChanges = 0`,
`isOnline = true` and `syncInProgress = false` for every user and every
database state; only `userId` and `lastSyncTimestamp` depend on state. -/
theorem claim_C10_status_constants (st : ServerState) (uid : String) :
    getSyncStatus st uid =
      { userId := uid
        lastSyncTimestamp := maxTimestampForUser st.syncLog uid
        pendingChanges := 0
        isOnline := true
        syncInProgress := false } :=
  rfl

end CollabSpace
